import Mathlib

/-!
Verification of the EtherNet/IP CIP device runtime in
`src/server/enip/device.py` (cpppo `enip.device`): a shallow embedding of
the object registry, path resolution, attribute access, the base Object
service dispatch, the Message Router Multiple Service Packet engine, the
Connection Manager Forward Open handler, and the UCMM session allocator,
together with theorems about them.

Machine integers are modelled as `Nat` with explicit `% 2^w` where the
code can overflow; fallible code returns `Option` or `Except`.
-/

set_option autoImplicit false

namespace Cpppo

/-! ## Wire primitives

Modelled from the spec: the codecs `USINT`, `UINT`, `UDINT`, `EPATH` and
`status` live in `server/enip/parser.py`, which is not part of the sources
under review; the spec (section 6) fixes USINT = 1 byte, UINT = 2 bytes
little-endian, UDINT = 4 bytes little-endian, EPATH = USINT size-in-words
followed by the segments, and the reply status rendering as one general
status byte followed by one extended-status size byte (zero when no
extended status is attached), as also shown by the reply byte tables in
the `device.py` docstrings. -/

/-- Modelled from the spec: `USINT.produce`, one byte. -/
def usintProduce (n : Nat) : List Nat := [n % 256]

/-- Modelled from the spec: `UINT.produce`, two bytes little-endian. -/
def uintProduce (n : Nat) : List Nat := [n % 256, n / 256 % 256]

/-- Modelled from the spec: `UDINT.produce`, four bytes little-endian. -/
def udintProduce (n : Nat) : List Nat :=
  [n % 256, n / 256 % 256, n / 65536 % 256, n / 16777216 % 256]

/-- Modelled from the spec: `status.produce` with no extended status
attached renders the general status byte followed by a zero
extended-status size byte (see the reply tables in the `device.py`
docstrings: `8A 00 00 00 ...`, `d2 00 00 00 ...`). -/
def statusProduce (st : Nat) : List Nat := [st % 256, 0]

/-- An EPATH segment as used by `resolve` and the producers: the shallow
embedding of the `dict` segments `{'class':n}`, `{'instance':n}`,
`{'attribute':n}`, `{'element':n}` and `{'symbolic':s}`. -/
inductive Seg where
  | scls (n : Nat)
  | sinst (n : Nat)
  | sattr (n : Nat)
  | selem (n : Nat)
  | ssym (s : String)
  deriving DecidableEq, Repr

/-- Modelled from the spec: one logical segment's wire form (8-bit value
forms; symbolic segments are `0x91`, length, characters, padded to an
even number of bytes). -/
def segProduce : Seg → List Nat
  | .scls n => [0x20, n % 256]
  | .sinst n => [0x24, n % 256]
  | .sattr n => [0x30, n % 256]
  | .selem n => [0x28, n % 256]
  | .ssym s =>
      let bytes := s.toList.map (fun c => c.toNat % 256)
      let bytes := if bytes.length % 2 = 0 then bytes else bytes ++ [0]
      0x91 :: s.length % 256 :: bytes

/-- Modelled from the spec: `EPATH.produce`, USINT size in words followed
by the segments. -/
def epathProduce (segs : List Seg) : List Nat :=
  let body := segs.foldr (fun s acc => segProduce s ++ acc) []
  usintProduce (body.length / 2) ++ body

/-! ## parse_int (device.py lines 247-258)

`parse_int(x, base=10)` first tries `int(x, base=base)` and, on
`ValueError`, falls back to `int(x, base=0)` (deduce the base from a
`0x`/`0o`/`0b` prefix).  We embed the relevant fragment of Python's
`int(str, base)` on unsigned digit strings. -/

/-- Value of one digit character, if it is a digit or letter. -/
def digitVal (c : Char) : Option Nat :=
  if '0' ≤ c ∧ c ≤ '9' then some (c.toNat - '0'.toNat)
  else if 'a' ≤ c ∧ c ≤ 'z' then some (c.toNat - 'a'.toNat + 10)
  else if 'A' ≤ c ∧ c ≤ 'Z' then some (c.toNat - 'A'.toNat + 10)
  else none

/-- Parse a nonempty string of digits in the given base; `none` when any
character is not a digit of the base (Python raises `ValueError`). -/
def digitsVal (base : Nat) : List Char → Option Nat
  | [] => none
  | cs => cs.foldl
      (fun acc c =>
        match acc, digitVal c with
        | some v, some d => if d < base then some (v * base + d) else none
        | _, _ => none)
      (some 0)

/-- Embedding of Python `int(x, base)` on nonnegative numerals: an
explicit base accepts plain digit strings (a matching `0x`/`0o`/`0b`
prefix is also accepted for bases 16/8/2); base 0 deduces the base from
the prefix and rejects leading zeros on nonzero decimals. -/
def pyInt (x : String) (base : Nat) : Option Nat :=
  let cs := x.toList
  match base, cs with
  | 0, '0' :: 'x' :: rest => digitsVal 16 rest
  | 0, '0' :: 'X' :: rest => digitsVal 16 rest
  | 0, '0' :: 'o' :: rest => digitsVal 8 rest
  | 0, '0' :: 'O' :: rest => digitsVal 8 rest
  | 0, '0' :: 'b' :: rest => digitsVal 2 rest
  | 0, '0' :: 'B' :: rest => digitsVal 2 rest
  | 0, _ =>
      if cs.all (· = '0') then digitsVal 10 cs
      else if cs.head? = some '0' then none
      else digitsVal 10 cs
  | 16, '0' :: 'x' :: rest => digitsVal 16 rest
  | 16, '0' :: 'X' :: rest => digitsVal 16 rest
  | 8, '0' :: 'o' :: rest => digitsVal 8 rest
  | 8, '0' :: 'O' :: rest => digitsVal 8 rest
  | 2, '0' :: 'b' :: rest => digitsVal 2 rest
  | 2, '0' :: 'B' :: rest => digitsVal 2 rest
  | b, _ => digitsVal b cs

/-- Embedding of `parse_int` (device.py lines 247-258): try the target
base, and fall back to base deduction on `ValueError`. -/
def parse_int (x : String) (base : Nat := 10) : Option Nat :=
  match pyInt x base with
  | some v => some v
  | none => pyInt x 0

/-! ## Multiple Service Packet reply production
(`Message_Router.produce`, device.py lines 1704-1739)

The reply branch iterates the already-produced sub-replies in reverse,
building `offsets = [0] + [o + len(rpy) for o in offsets]`, and then
emits `USINT service; 00 reserved; status; UINT N; UINT (2 + 2N + o) for
each offset; concatenated replies` (the count/offsets/payload only when
status is 0). -/

/-- The raw offset list built by the reversed loop in
`Message_Router.produce` from the sub-reply byte strings. -/
def mspOffsets (inputs : List (List Nat)) : List Nat :=
  inputs.foldr (fun rpy offs => 0 :: offs.map (· + rpy.length)) []

/-- Embedding of the `MULTIPLE_RPY` branch of `Message_Router.produce`:
the full encoded Multiple Service Packet reply. -/
def mspProduceReply (service st : Nat) (inputs : List (List Nat)) : List Nat :=
  usintProduce service ++ [0x00] ++ statusProduce st ++
    (if st = 0 then
      uintProduce inputs.length ++
        (mspOffsets inputs).foldr
          (fun o acc => uintProduce (2 + 2 * inputs.length + o) ++ acc) [] ++
        inputs.foldr (fun r acc => r ++ acc) []
    else [])

/-- Prefix sums of a list of lengths: `[0, L0, L0+L1, ...]`. -/
def prefixSums : List Nat → List Nat
  | [] => []
  | l :: ls => 0 :: (prefixSums ls).map (· + l)

/-! ## Path resolution (`resolve`, device.py lines 175-232)

`resolve(path, attribute=False)` walks the path segments left to right,
filling a `{'class': None, 'instance': None, 'attribute': None}` result.
The walk breaks off as soon as class and instance (and, when
`attribute=True`, attribute) are all set.  Numeric segments may not
overwrite a set field; symbolic segments accumulate into a dotted tag
that is looked up in the symbol table at each extension, a hit
substituting all three mapped fields (each of which must be unset); a
non-symbolic segment carrying none of the three keys is an invalid term.
At the end the pending tag must be empty and all required fields set. -/

/-- Symbol table: tags mapped to (class, instance, attribute), as built
by `redirect_tag` (which requires all three keys). -/
abbrev SymTab := List (String × Nat × Nat × Nat)

/-- First-match lookup in the symbol table. -/
def symLookup : SymTab → String → Option (Nat × Nat × Nat)
  | [], _ => none
  | (k, v) :: rest, t => if k = t then some v else symLookup rest t

/-- The in-progress `result` dict plus the pending dotted tag. -/
structure RSt where
  c : Option Nat
  i : Option Nat
  a : Option Nat
  tag : String
  deriving DecidableEq, Repr

/-- The distinct assertion failures `resolve` can raise. -/
inductive RErr where
  | overwrite
  | invalidTerm
  | unresolvedTag
  | missingField
  deriving DecidableEq, Repr

/-- Extend the pending dotted tag with one symbolic component. -/
def tagExtend (tag s : String) : String :=
  if tag = "" then s else tag ++ "." ++ s

/-- All fields required by the call are filled (the loop's break guard). -/
def doneSt (attrWanted : Bool) (st : RSt) : Bool :=
  st.c.isSome && st.i.isSome && (!attrWanted || st.a.isSome)

/-- Processing of a single path segment (`term`) by `resolve`'s loop
body: pull class/instance/attribute keys into the result (failing on
overwrite), reject terms with none of the keys and no symbolic name,
and accumulate/substitute symbolic tags. -/
def resolveStep (tab : SymTab) (st : RSt) : Seg → Except RErr RSt
  | .scls n => if st.c.isSome then .error .overwrite else .ok { st with c := some n }
  | .sinst n => if st.i.isSome then .error .overwrite else .ok { st with i := some n }
  | .sattr n => if st.a.isSome then .error .overwrite else .ok { st with a := some n }
  | .selem _ => .error .invalidTerm
  | .ssym s =>
      let t := tagExtend st.tag s
      match symLookup tab t with
      | none => .ok { st with tag := t }
      | some (c, i, a) =>
          if st.c.isSome || st.i.isSome || st.a.isSome then .error .overwrite
          else .ok ⟨some c, some i, some a, ""⟩

/-- The segment walk of `resolve`: break off once all required fields
are set, otherwise process the next segment. -/
def walkSegs (tab : SymTab) (attrWanted : Bool) : RSt → List Seg → Except RErr RSt
  | st, [] => .ok st
  | st, seg :: rest =>
      if doneSt attrWanted st then .ok st
      else match resolveStep tab st seg with
        | .error e => .error e
        | .ok st1 => walkSegs tab attrWanted st1 rest

/-- Embedding of `resolve` (device.py lines 175-232): walk, then check
the pending tag is resolved and the required fields are all filled. -/
def resolve (tab : SymTab) (segs : List Seg) (attrWanted : Bool) :
    Except RErr (Nat × Nat × Option Nat) :=
  match walkSegs tab attrWanted ⟨none, none, none, ""⟩ segs with
  | .error e => .error e
  | .ok st =>
      if st.tag ≠ "" then .error .unresolvedTag
      else if st.c.isNone || st.i.isNone || (attrWanted && st.a.isNone) then
        .error .missingField
      else .ok (st.c.getD 0, st.i.getD 0, if attrWanted then st.a else none)

/-- Spec-side mirror for the amended claim C8, following its words: the
walk stops once all required fields are set (all later segments are
ignored, subject only to the final pending-tag check); among the
segments actually processed, succeeding means never overwriting a set
field, never hitting a non-symbolic term without any of the three keys,
and ending with no pending tag and all required fields filled. -/
def resolveOkSpec (tab : SymTab) (attrWanted : Bool) : RSt → List Seg → Bool
  | st, [] => st.tag == "" && doneSt attrWanted st
  | st, seg :: rest =>
      if doneSt attrWanted st then st.tag == ""
      else match seg with
        | .scls n => !st.c.isSome && resolveOkSpec tab attrWanted { st with c := some n } rest
        | .sinst n => !st.i.isSome && resolveOkSpec tab attrWanted { st with i := some n } rest
        | .sattr n => !st.a.isSome && resolveOkSpec tab attrWanted { st with a := some n } rest
        | .selem _ => false
        | .ssym s =>
            match symLookup tab (tagExtend st.tag s) with
            | none => resolveOkSpec tab attrWanted { st with tag := tagExtend st.tag s } rest
            | some (c, i, a) =>
                !(st.c.isSome || st.i.isSome || st.a.isSome) &&
                  resolveOkSpec tab attrWanted ⟨some c, some i, some a, ""⟩ rest

/-! ## The base Object service dispatch
(`Object.request` lines 791-904 and `Object.produce` lines 906-962)

The request is a `dotdict` artifact; we embed the fields `Object.request`
and `Object.produce` consult.  The context flags model `'<ctx>' in data`
for the four service contexts; `gaAllData`/`gaSngData` model the reply
payload dotdicts written by request processing; `saData` models
`set_attribute_single.data`; `svCodData` models a `service_code` dict
carrying a `data` payload. -/

/-- The attribute state `Object.request` consults: the visibility mask,
the bytes `produce()` renders, and the element size/count used by Set
Attribute Single's length check.  (`MASK_GA_SNG = 1`, `MASK_GA_ALL = 2`.) -/
structure AttrM where
  mask : Nat
  produceBytes : List Nat
  calcsize : Nat
  len : Nat
  deriving DecidableEq, Repr

/-- An Object's attribute directory: ids mapped to attributes. -/
structure ObjM where
  attrs : List (Nat × AttrM)
  deriving DecidableEq, Repr

def getAttr (o : ObjM) (i : Nat) : Option AttrM :=
  o.attrs.lookup i

/-- The contiguous run of attributes at ids `1, 2, ...` that the
`while str(a_id) in self.attribute` loop of Get Attributes All visits
(fuelled; ids are distinct dict keys so `o.attrs.length` bounds the run). -/
def gaAllChain (o : ObjM) : Nat → Nat → List AttrM
  | _, 0 => []
  | i, fuel + 1 =>
      match getAttr o i with
      | some a => a :: gaAllChain o (i + 1) fuel
      | none => []

/-- The bytes collected by Get Attributes All: attributes with
`mask & MASK_GA_ALL` are skipped but the id scan continues. -/
def gaAllBytes (o : ObjM) : List Nat :=
  ((gaAllChain o 1 o.attrs.length).filter (fun a => a.mask &&& 2 == 0)).foldr
    (fun a acc => a.produceBytes ++ acc) []

/-- The request/reply data artifact fields consulted by the base
`Object.request`/`Object.produce`. -/
structure Data where
  service : Option Nat
  gaAllCtx : Bool
  gaSngCtx : Bool
  saCtx : Bool
  svCodCtx : Bool
  gaAllData : Option (List Nat)
  gaSngData : Option (List Nat)
  saData : Option (List Nat)
  svCodData : Option (List Nat)
  path : Option (List Seg)
  status : Nat
  input : Option (List Nat)
  deriving DecidableEq, Repr

/-- The request-recognition chain of `Object.request` (lines 821-831):
each branch is `data.get('service') == REQ or CTX in data and
data.setdefault('service', REQ) == REQ`; `setdefault` only fires (and
then matches) when the service is unset, so recognition succeeds exactly
when the service equals the request code, or is unset with the context
present.  Returns the recognized request service code. -/
def recognizeSvc (d : Data) : Option Nat :=
  if d.service = some 0x0E ∨ (d.gaSngCtx ∧ d.service.isNone) then some 0x0E
  else if d.service = some 0x01 ∨ (d.gaAllCtx ∧ d.service.isNone) then some 0x01
  else if d.service = some 0x10 ∨ ((d.saCtx ∨ d.saData.isSome) ∧ d.service.isNone) then some 0x10
  else none

/-- Attribute id in the last path segment, if any (`'attribute' in
data.path['segment'][-1]`; a missing path, empty segment list or
non-attribute tail all raise and so fail the request). -/
def lastAttrOf (path : Option (List Seg)) : Option Nat :=
  path.bind fun segs =>
    segs.getLast?.bind fun seg =>
      match seg with
      | .sattr n => some n
      | _ => none

/-- Processing of a recognized request (the body of the `try` in
`Object.request` after `data.service |= 0x80`): on success status
becomes 0 and the reply payload field is written; any assertion failure
is caught with status left at the preset 0x08. -/
def processRecognized (o : ObjM) (d : Data) : ObjM × Data :=
  if d.service = some 0x81 then
    let bs := gaAllBytes o
    if bs = [] then (o, d)
    else (o, { d with gaAllData := some bs, status := 0 })
  else
    match lastAttrOf d.path with
    | none => (o, d)
    | some aId =>
        match getAttr o aId with
        | none => (o, d)
        | some att =>
            if att.mask &&& 1 ≠ 0 then (o, d)
            else if d.service = some 0x8E then
              (o, { d with gaSngData := some att.produceBytes, status := 0 })
            else
              match d.saData with
              | none => (o, d)
              | some bytes =>
                  if bytes.length = att.calcsize * att.len then (o, { d with status := 0 })
                  else (o, d)

/-- Embedding of the classmethod `Object.produce` (lines 906-962): the
`elif` chain over request contexts, reply service codes, the generic
service code form, and the generic reply form; `none` models the raised
`AssertionError` (or the `None & 0x80` `TypeError`) of the final cases,
and of a produce that needs a missing field. -/
def objProduce (d : Data) : Option (List Nat) :=
  if (d.gaAllCtx ∨ d.gaAllData.isSome) ∧ d.service.getD 0x01 = 0x01 then
    d.path.map fun segs => usintProduce 0x01 ++ epathProduce segs
  else if (d.gaSngCtx ∨ d.gaSngData.isSome) ∧ d.service.getD 0x0E = 0x0E then
    d.path.map fun segs => usintProduce 0x0E ++ epathProduce segs
  else if (d.saCtx ∨ d.saData.isSome) ∧ d.service.getD 0x10 = 0x10 then
    match d.path, d.saData with
    | some segs, some bytes => some (usintProduce 0x10 ++ epathProduce segs ++ bytes)
    | _, _ => none
  else if d.service = some 0x81 then
    if d.status = 0 then
      d.gaAllData.map fun bs => usintProduce 0x81 ++ [0x00] ++ statusProduce 0 ++ bs
    else some (usintProduce 0x81 ++ [0x00] ++ statusProduce d.status)
  else if d.service = some 0x8E then
    if d.status = 0 then
      d.gaSngData.map fun bs => usintProduce 0x8E ++ [0x00] ++ statusProduce 0 ++ bs
    else some (usintProduce 0x8E ++ [0x00] ++ statusProduce d.status)
  else if d.service = some 0x90 then
    some (usintProduce 0x90 ++ [0x00] ++ statusProduce d.status)
  else if d.svCodCtx ∧ d.service.isSome ∧ d.service ≠ some 0 then
    match d.service, d.path with
    | some s, some segs =>
        some (usintProduce s ++ epathProduce segs ++ d.svCodData.getD [])
    | _, _ => none
  else
    match d.service with
    | some s =>
        if s &&& 0x80 ≠ 0 then
          some (usintProduce s ++ [0x00] ++ statusProduce d.status ++
            (if d.status = 0 ∧ d.svCodCtx ∧ d.svCodData.isSome then d.svCodData.getD []
             else []))
        else none
    | none => none

/-- Embedding of `Object.request` (lines 791-904): preset status 0x08,
recognize the service (an unrecognized one raises and is caught), set
the reply bit and process, then always attempt to produce the response
into `data.input`; a failing produce propagates as an exception
(`Except.error`) with `input` never written. -/
def objRequest (o : ObjM) (d : Data) : Except Unit (ObjM × Data) :=
  let d0 := { d with status := 8 }
  let od1 :=
    match recognizeSvc d0 with
    | some svc => processRecognized o { d0 with service := some (svc ||| 0x80) }
    | none => (o, d0)
  match objProduce od1.2 with
  | some bs => .ok (od1.1, { od1.2 with input := some bs })
  | none => .error ()

/-! ## The Multiple Service Packet engine
(`Message_Router.request` lines 1558-1638, `Message_Router.produce`
lines 1640-1739, `Message_Router.route` lines 1531-1556)

A parsed MSP artifact carries the nested sub-requests in
`data.multiple.request`; `Message_Router.request` takes the MSP branch
itself (never forwarding the whole packet), resolves the optional
`data.path` to the target Object (falling back to itself when the path
names itself or no such object exists, and raising — status 0x16 — when
resolution fails), dispatches each sub-request to the target in index
order, and produces the reply locally.  The sub-request handler is
modelled as a state-threading function so that the dispatch order is
observable. -/

/-- A nested sub-request/sub-reply artifact; after dispatch its `input`
holds the produced sub-reply bytes. -/
structure Sub where
  input : List Nat
  deriving DecidableEq, Repr

/-- The `for r in data.multiple.request: target.request(r)` loop:
sequential in-place conversion, replies kept in index order. -/
def mspProcess {σ : Type} (f : σ → Sub → σ × Sub) : σ → List Sub → σ × List Sub
  | s, [] => (s, [])
  | s, r :: rs =>
      let (s1, r1) := f s r
      let (s2, rs1) := mspProcess f s1 rs
      (s2, r1 :: rs1)

/-- Embedding of the MSP branch of `Message_Router.request`: returns the
final handler state, the reply service, the reply status, and the
produced `data.input` bytes.  `objs` is the registry lookup; a path that
fails to resolve raises (`ROUTE_RAISE`) and yields the status 0x16 error
reply; a resolved-but-absent object falls back to the router itself. -/
def mspRequest {σ : Type} (selfIds : Nat × Nat)
    (objs : Nat × Nat → Option (σ → Sub → σ × Sub))
    (selfF : σ → Sub → σ × Sub) (tab : SymTab)
    (path : Option (List Seg)) (reqs : List Sub) (s : σ) :
    σ × Nat × Nat × List Nat :=
  let run : (σ → Sub → σ × Sub) → σ × Nat × Nat × List Nat := fun tf =>
    let (s1, replies) := mspProcess tf s reqs
    (s1, 0x8A, 0, mspProduceReply 0x8A 0 (replies.map Sub.input))
  match path with
  | none => run selfF
  | some segs =>
      match resolve tab segs false with
      | .error _ => (s, 0x8A, 0x16, mspProduceReply 0x8A 0x16 [])
      | .ok (c, i, _) =>
          if (c, i) = selfIds then run selfF
          else
            match objs (c, i) with
            | some f => run f
            | none => run selfF

/-! ## Attribute integer indexing
(`Attribute._validate_key` lines 431-447, `__getitem__`/`__setitem__`
lines 449-474)

For an `int` key the only check is `key >= len(self)`; a passing key is
then used to index the backing Python list, where a negative index in
range addresses elements from the end. -/

/-- Embedding of the `int` arm of `Attribute._validate_key`: reject only
keys at or beyond the length (`KeyError`); every negative key passes. -/
def validateKeyInt (len : Nat) (key : Int) : Bool :=
  decide (key < len)

/-- Python list read at a possibly negative index. -/
def pyListGet {α : Type} (l : List α) (k : Int) : Option α :=
  if 0 ≤ k then l.get? k.toNat
  else if 0 ≤ k + l.length then l.get? (k + l.length).toNat
  else none

/-- Python list write at a possibly negative index. -/
def pyListSet {α : Type} (l : List α) (k : Int) (v : α) : Option (List α) :=
  if 0 ≤ k then if k.toNat < l.length then some (l.set k.toNat v) else none
  else if 0 ≤ k + l.length then some (l.set (k + l.length).toNat v) else none

/-- Embedding of `Attribute.__getitem__` for a vector attribute and an
`int` key: validate, then read the backing list. -/
def attrGetItemInt {α : Type} (values : List α) (k : Int) : Option α :=
  if validateKeyInt values.length k then pyListGet values k else none

/-- Embedding of `Attribute.__setitem__` for a vector attribute and an
`int` key: validate, then write the backing list. -/
def attrSetItemInt {α : Type} (values : List α) (k : Int) (v : α) : Option (List α) :=
  if validateKeyInt values.length k then pyListSet values k v else none

/-! ## UCMM session registration (`UCMM.request`, device.py lines 1221-1233)

The `register` branch draws `session = random.randint(0, 2**32)` —
Python's `randint` includes BOTH endpoints, so `0 .. 2^32` — and loops
`while not session or session in self.__class__.sessions`.  `sessions`
is a dict keyed by peer ADDRESS mapping to the handle, so the membership
test compares the integer draw against the address keys.  We embed
Python's dynamically typed values so that this comparison is expressible
exactly as written. -/

/-- A dynamically typed Python value (the fragment needed: peer address
strings and integer handles). -/
inductive PyVal where
  | pstr (s : String)
  | pint (n : Nat)
  deriving DecidableEq, Repr

/-- Insert-or-replace into the `sessions` dict. -/
def dictInsert (sessions : List (PyVal × Nat)) (addr : PyVal) (v : Nat) :
    List (PyVal × Nat) :=
  if sessions.any (fun kv => kv.1 = addr) then
    sessions.map (fun kv => if kv.1 = addr then (addr, v) else kv)
  else sessions ++ [(addr, v)]

/-- Embedding of the Register Session allocation loop: consume draws
from the modelled `random.randint(0, 2**32)` stream (each draw is in
`0 .. 2^32` inclusive), rejecting a draw exactly when it is falsey (0)
or when, as a `PyVal`, it occurs among the KEYS of `sessions` (the peer
addresses).  Returns the updated table and the issued handle. -/
def registerSession (sessions : List (PyVal × Nat)) (addr : PyVal) :
    List Nat → Option (List (PyVal × Nat) × Nat)
  | [] => none
  | draw :: rest =>
      if draw = 0 ∨ (sessions.map Prod.fst).contains (PyVal.pint draw) then
        registerSession sessions addr rest
      else some (dictInsert sessions addr draw, draw)

/-! ## Forward Open (`Connection_Manager`, device.py lines 1972-2151)

`forward_open` fabricates `T_O_connection_ID = random.randint(0,
2**32-1)` (inclusive of 0), copies the RPIs into the APIs and reports
status 0; the `request` wrapper sets `service |= 0x80` and produces the
reply, which echoes the O→T id, connection serial, vendor and originator
serial from the (otherwise untouched) request fields, then appends the
application size (0 by default) and one pad byte. -/

/-- The `data.forward_open` fields used by the handler and the reply
producer. -/
structure FwdOpen where
  otId : Nat
  toId : Nat
  serial : Nat
  vendor : Nat
  oserial : Nat
  otRpi : Nat
  toRpi : Nat
  otApi : Nat
  toApi : Nat
  deriving DecidableEq, Repr

/-- Embedding of `Connection_Manager.forward_open` (lines 1972-1992):
`rand` is the value drawn by `random.randint(0, 2**32-1)`.  Returns the
updated `forward_open` dict and the status. -/
def forwardOpen (rand : Nat) (fo : FwdOpen) : FwdOpen × Nat :=
  ({ fo with toId := rand, otApi := fo.otRpi, toApi := fo.toRpi }, 0)

/-- Embedding of the `FWD_OPEN_RPY` branch of
`Connection_Manager.produce` (lines 2117-2151) with no application data
(`app.size = 0`, one pad byte). -/
def fwdOpenReplyBytes (service st : Nat) (fo : FwdOpen) : List Nat :=
  usintProduce service ++ [0x00] ++ statusProduce st ++
    udintProduce fo.otId ++ udintProduce fo.toId ++
    uintProduce fo.serial ++ uintProduce fo.vendor ++ udintProduce fo.oserial ++
    udintProduce fo.otApi ++ udintProduce fo.toApi ++
    usintProduce 0 ++ [0x00]

/-- Embedding of the Forward Open arm of `Connection_Manager.request`
(lines 2005-2037): set the reply bit, preset status 8, run
`forward_open`, and produce the reply.  Returns (service, status,
forward_open fields, reply bytes). -/
def cmForwardOpenRequest (rand service : Nat) (fo : FwdOpen) :
    Nat × Nat × FwdOpen × List Nat :=
  let service1 := service ||| 0x80
  let (fo1, st) := forwardOpen rand fo
  (service1, st, fo1, fwdOpenReplyBytes service1 st fo1)

/-! ## Object registry and instance allocation
(`lookup_reset` lines 142-151, `Object.__init__` lines 732-783)

`Object.__init__` allocates `max_instance + 1` when no instance id is
given, raises `max_instance` when exceeded, asserts the (class,
instance) pair is not yet in the directory BEFORE registering it, and
lazily creates the class-level instance 0.  `lookup_reset` empties the
directory and the symbol table but leaves every class's `max_instance`
counter alone. -/

/-- The process-wide registry state: per-class `max_instance` counters,
the `directory` of live (class, instance) pairs, and the tag `symbol`
table. -/
structure RegSt where
  maxInst : Nat → Nat
  dir : List (Nat × Nat)
  symtab : SymTab

/-- Embedding of `Object.__init__`'s registration protocol: returns the
allocated instance id (`none` models the duplicate-instance assertion
failure) together with the updated state. -/
def mkObject (s : RegSt) (c : Nat) (iid : Option Nat) : Option Nat × RegSt :=
  let i := iid.getD (s.maxInst c + 1)
  let m1 : Nat → Nat := fun c2 => if c2 = c then max (s.maxInst c2) i else s.maxInst c2
  if (s.dir.contains (c, i) : Bool) then (none, { s with maxInst := m1 })
  else
    let dir1 := (c, i) :: s.dir
    let dir2 := if i ≠ 0 ∧ ¬(dir1.contains (c, 0) : Bool) then (c, 0) :: dir1 else dir1
    (some i, { maxInst := m1, dir := dir2, symtab := s.symtab })

/-- Embedding of `lookup_reset` (lines 142-151). -/
def lookup_reset (s : RegSt) : RegSt :=
  { s with dir := [], symtab := [] }

/-- One registry operation: construct with automatic id, construct with
an explicit id, or reset. -/
inductive RegOp where
  | autoAlloc (c : Nat)
  | expAlloc (c i : Nat)
  | reset

/-- Run a sequence of registry operations from a state, collecting the
trace of successful constructions as (was-automatic, class, id). -/
def runTrace : RegSt → List RegOp → RegSt × List (Bool × Nat × Nat)
  | s, [] => (s, [])
  | s, op :: rest =>
      let step : Option (Bool × Nat × Nat) × RegSt :=
        match op with
        | .autoAlloc c =>
            let (r, s1) := mkObject s c none
            (r.map (fun i => (true, c, i)), s1)
        | .expAlloc c i =>
            let (r, s1) := mkObject s c (some i)
            (r.map (fun j => (false, c, j)), s1)
        | .reset => (none, lookup_reset s)
      let (s2, tr) := runTrace step.2 rest
      (s2, step.1.toList ++ tr)

/-- Every id registered in the directory is bounded by its class's
`max_instance` counter. -/
def dirInv (s : RegSt) : Prop :=
  ∀ p ∈ s.dir, p.2 ≤ s.maxInst p.1

/-- The ordering the allocation trace must satisfy: any later automatic
allocation of the same class received a strictly larger id. -/
def allocLt (e1 e2 : Bool × Nat × Nat) : Prop :=
  e2.1 = true → e1.2.1 = e2.2.1 → e1.2.2 < e2.2.2

/-- The empty initial registry. -/
def regInit : RegSt := ⟨fun _ => 0, [], []⟩

/-- Whether a resolution result is a success. -/
def exceptOk (r : Except RErr (Nat × Nat × Option Nat)) : Bool :=
  match r with
  | .ok _ => true
  | .error _ => false

/-- The final checks `resolve` performs after the walk, as a Bool: no
pending tag, and all required fields filled. -/
def finalizeOk (aw : Bool) (st : RSt) : Bool :=
  (st.tag == "") && !(st.c.isNone || st.i.isNone || (aw && st.a.isNone))

/-! ## Theorems -/

/-! ### Helper lemmas about the MSP offset table -/

theorem mspOffsets_eq_prefixSums (inputs : List (List Nat)) :
    mspOffsets inputs = prefixSums (inputs.map List.length) := by
  induction inputs with
  | nil => rfl
  | cons x xs ih => simp [mspOffsets, prefixSums, List.foldr] at ih ⊢; rw [ih]

theorem prefixSums_length (ls : List Nat) : (prefixSums ls).length = ls.length := by
  induction ls with
  | nil => rfl
  | cons l ls ih => simp [prefixSums, ih]

theorem prefixSums_get? (ls : List Nat) (i : Nat) (hi : i < ls.length) :
    (prefixSums ls).get? i = some ((ls.take i).sum) := by
  induction ls generalizing i with
  | nil => simp at hi
  | cons l ls ih =>
    cases i with
    | zero => simp [prefixSums]
    | succ j =>
      simp only [prefixSums, List.get?_cons_succ, List.get?_map]
      rw [ih j (by simpa using hi)]
      simp [List.take_succ_cons, Nat.add_comm]

theorem foldr_uint_length (f : Nat → Nat) (l : List Nat) :
    (l.foldr (fun o acc => uintProduce (f o) ++ acc) []).length = 2 * l.length := by
  induction l with
  | nil => rfl
  | cons x xs ih =>
    rw [List.foldr_cons, List.length_append, ih]
    simp only [uintProduce, List.length_cons, List.length_nil, List.length_cons]
    omega

theorem foldr_append_length (l : List (List Nat)) :
    (l.foldr (fun r acc => r ++ acc) []).length = (l.map List.length).sum := by
  induction l with
  | nil => rfl
  | cons x xs ih => simp [ih]

theorem mspProduceReply_zero_length (service : Nat) (inputs : List (List Nat)) :
    (mspProduceReply service 0 inputs).length =
      6 + 2 * inputs.length + (inputs.map List.length).sum := by
  unfold mspProduceReply
  rw [if_pos rfl]
  simp only [usintProduce, statusProduce, List.cons_append, List.nil_append,
    List.length_append, List.length_cons]
  rw [foldr_uint_length (fun o => 2 + 2 * inputs.length + o) (mspOffsets inputs)]
  rw [foldr_append_length]
  rw [mspOffsets_eq_prefixSums, prefixSums_length, List.length_map]
  simp only [uintProduce, List.length_cons, List.length_nil]
  omega

/-! ### C1: Multiple Service Packet reply offsets and body length -/

/-- C1 counterexample: for a status-0 MSP reply over one sub-reply of 4
bytes, `Message_Router.produce` emits 12 bytes in total; the bytes
following the service, reserved and status bytes (the first four emitted
bytes: service, reserved, general status, extended-status size — or even
counting the status as one byte, the first three) number 8 (resp. 9),
not the `4 + 2*N + sum L_i = 10` the claim states. -/
theorem C1_counterexample :
    ((mspProduceReply 0x8A 0 [[1, 2, 3, 4]]).drop 4).length = 8 ∧
    ((mspProduceReply 0x8A 0 [[1, 2, 3, 4]]).drop 3).length = 9 ∧
    ¬ ((mspProduceReply 0x8A 0 [[1, 2, 3, 4]]).drop 4).length = 4 + 2 * 1 + 4 ∧
    ¬ ((mspProduceReply 0x8A 0 [[1, 2, 3, 4]]).drop 3).length = 4 + 2 * 1 + 4 := by
  decide

/-- C1 (amended): for every status-0 MSP reply built by
`Message_Router.produce` from sub-replies of lengths `L_0 .. L_{N-1}`,
the emitted offset table has `offset[0] = 2 + 2N` and
`offset[i] = offset[i-1] + L_{i-1}`, and the reply body following the
service and reserved bytes (that is, including the two status bytes) has
length `4 + 2*N + sum L_i`. -/
theorem C1_msp_offsets_and_body (inputs : List (List Nat)) (h : inputs ≠ []) :
    ((mspOffsets inputs).map (fun o => 2 + 2 * inputs.length + o)).length
        = inputs.length ∧
    ((mspOffsets inputs).map (fun o => 2 + 2 * inputs.length + o)).get? 0
        = some (2 + 2 * inputs.length) ∧
    (∀ i a b l, i + 1 < inputs.length →
      ((mspOffsets inputs).map (fun o => 2 + 2 * inputs.length + o)).get? i = some a →
      ((mspOffsets inputs).map (fun o => 2 + 2 * inputs.length + o)).get? (i + 1) = some b →
      (inputs.map List.length).get? i = some l → b = a + l) ∧
    ((mspProduceReply 0x8A 0 inputs).drop 2).length
        = 4 + 2 * inputs.length + (inputs.map List.length).sum := by
  have hlen0 : 0 < inputs.length := List.length_pos.mpr h
  have hoff := mspOffsets_eq_prefixSums inputs
  have hofflen : (mspOffsets inputs).length = inputs.length := by
    rw [hoff, prefixSums_length, List.length_map]
  refine ⟨by simp [hofflen], ?_, ?_, ?_⟩
  · rw [List.get?_map, hoff, prefixSums_get? _ 0 (by simpa using hlen0)]
    simp
  · intro i a b l hi ha hb hl
    rw [List.get?_map, hoff, prefixSums_get? _ i (by simpa using Nat.lt_of_succ_lt hi)] at ha
    rw [List.get?_map, hoff, prefixSums_get? _ (i + 1) (by simpa using hi)] at hb
    have hil : i < (inputs.map List.length).length := by simpa using Nat.lt_of_succ_lt hi
    have hsum := List.sum_take_succ (inputs.map List.length) i hil
    have hgl : (inputs.map List.length)[i] = l := by
      rw [List.get?_eq_getElem?, List.getElem?_eq_getElem hil] at hl
      exact Option.some.inj hl
    simp only [Option.map_some'] at ha hb
    have ha' := Option.some.inj ha
    have hb' := Option.some.inj hb
    rw [hsum, hgl] at hb'
    omega
  · rw [List.length_drop, mspProduceReply_zero_length]
    omega

/-- C1 witness: the amended theorem applied to two concrete sub-replies
of lengths 4 and 2. -/
theorem C1_msp_offsets_and_body_witness :
    ((mspProduceReply 0x8A 0 [[1, 2, 3, 4], [5, 6]]).drop 2).length = 4 + 2 * 2 + 6 := by
  have h := (C1_msp_offsets_and_body [[1, 2, 3, 4], [5, 6]] (by decide)).2.2.2
  simpa using h

/-! ### C7: parse_int and leading zeros -/

/-- C7: `parse_int` does not treat a leading zero as an octal prefix —
`parse_int "012" = 12` — while explicit prefixes still select the base:
`parse_int "0o12" = 10`, `parse_int "0x1A" = 26` (base 16),
`parse_int "0b100110" = 38` (base 2). -/
theorem C7_parse_int_leading_zero :
    parse_int "012" = some 12 ∧ parse_int "0o12" = some 10 ∧
    parse_int "0x1A" = some 26 ∧ parse_int "0b100110" = some 38 := by
  refine ⟨rfl, rfl, rfl, rfl⟩

/-! ### C9: negative integer keys pass Attribute key validation -/

/-- C9: `Attribute._validate_key` only checks the upper bound for `int`
keys, so every negative key passes validation; on a vector attribute an
in-range negative key silently reads and writes elements from the end,
while a key at or beyond the length still fails with the `KeyError`. -/
theorem C9_negative_index (values : List Nat) (k : Int) (v : Nat)
    (hlow : -(values.length : Int) ≤ k) (hneg : k < 0) :
    validateKeyInt values.length k = true ∧
    attrGetItemInt values k = values.get? (k + values.length).toNat ∧
    attrSetItemInt values k v = some (values.set (k + values.length).toNat v) ∧
    (∀ j : Int, (values.length : Int) ≤ j → attrGetItemInt values j = none) := by
  have hval : validateKeyInt values.length k = true := by
    unfold validateKeyInt
    rw [decide_eq_true_iff]
    omega
  refine ⟨hval, ?_, ?_, ?_⟩
  · unfold attrGetItemInt
    rw [hval, if_pos rfl]
    unfold pyListGet
    rw [if_neg (by omega), if_pos (by omega)]
  · unfold attrSetItemInt
    rw [hval, if_pos rfl]
    unfold pyListSet
    rw [if_neg (by omega), if_pos (by omega)]
  · intro j hj
    unfold attrGetItemInt validateKeyInt
    rw [if_neg]
    simp only [decide_eq_true_iff]
    omega

/-- C9 witness: on the vector `[10, 20, 30]` the key `-1` validates and
reads the LAST element, instead of raising the `KeyError` that key 3
raises. -/
theorem C9_negative_index_witness :
    attrGetItemInt [10, 20, 30] (-1) = some 30 ∧ attrGetItemInt [10, 20, 30] 3 = none := by
  have h := C9_negative_index [10, 20, 30] (-1) 7 (by decide) (by decide)
  refine ⟨?_, h.2.2.2 3 (by decide)⟩
  rw [h.2.1]
  rfl

/-! ### C3: Register Session handle allocation -/

/-- C3: evaluating the embedded Register Session allocator of
`UCMM.request` at the failing inputs.  First, `random.randint(0, 2**32)`
includes both endpoints, so the draw `2^32` is possible and is issued
unchanged — the allocated handle is NOT strictly below `2^32`.  Second,
the collision test `session in self.__class__.sessions` tests the
integer draw against the dict KEYS, which are peer addresses, so a draw
equal to another peer's live handle (777 here) is NOT retried: two
concurrently-live sessions for distinct peers share handle 777. -/
theorem C3_session_bug :
    (registerSession [] (PyVal.pstr "A") [2 ^ 32] =
        some ([(PyVal.pstr "A", 2 ^ 32)], 2 ^ 32) ∧ ¬ (2 ^ 32 < 2 ^ 32)) ∧
    (registerSession [(PyVal.pstr "A", 777)] (PyVal.pstr "B") [777] =
        some ([(PyVal.pstr "A", 777), (PyVal.pstr "B", 777)], 777)) := by
  refine ⟨⟨rfl, by omega⟩, rfl⟩

/-! ### C4: Forward Open reply -/

/-- C4 counterexample: `random.randint(0, 2**32-1)` includes 0, and
`Connection_Manager.forward_open` installs the draw with no retry, so a
draw of 0 produces a Forward Open reply whose T→O connection id is 0 —
the claimed "nonzero" does not hold. -/
theorem C4_counterexample :
    ((cmForwardOpenRequest 0 0x54
        ⟨0x12345678, 0, 0x1234, 0x4321, 0xABCDEF, 1000, 2000, 0, 0⟩).2.2.1).toId = 0 := by
  rfl

/-- C4 (amended): for every Forward Open request processed by the
Connection Manager with draw `rand` from `random.randint(0, 2**32-1)`,
the reply has service 0xD4, allocates the random 32-bit (possibly zero)
T→O connection id `rand`, echoes the O→T connection id, connection
serial, originator vendor and originator serial from the request, sets
O→T API = O→T RPI and T→O API = T→O RPI, and sets status 0; the reply
bytes carry a zero application size and one pad byte. -/
theorem C4_forward_open (rand : Nat) (fo : FwdOpen) (h : rand ≤ 2 ^ 32 - 1) :
    cmForwardOpenRequest rand 0x54 fo =
      (0xD4, 0, { fo with toId := rand, otApi := fo.otRpi, toApi := fo.toRpi },
        fwdOpenReplyBytes 0xD4 0
          { fo with toId := rand, otApi := fo.otRpi, toApi := fo.toRpi }) ∧
    ({ fo with toId := rand, otApi := fo.otRpi, toApi := fo.toRpi } : FwdOpen).otId
        = fo.otId ∧
    ({ fo with toId := rand, otApi := fo.otRpi, toApi := fo.toRpi } : FwdOpen).serial
        = fo.serial ∧
    ({ fo with toId := rand, otApi := fo.otRpi, toApi := fo.toRpi } : FwdOpen).vendor
        = fo.vendor ∧
    ({ fo with toId := rand, otApi := fo.otRpi, toApi := fo.toRpi } : FwdOpen).oserial
        = fo.oserial ∧
    rand ≤ 2 ^ 32 - 1 := by
  exact ⟨rfl, rfl, rfl, rfl, rfl, h⟩

/-- C4 witness: the amended theorem at draw 5 and a concrete request. -/
theorem C4_forward_open_witness :
    cmForwardOpenRequest 5 0x54 ⟨1, 0, 2, 3, 4, 10, 20, 0, 0⟩ =
      (0xD4, 0, ⟨1, 5, 2, 3, 4, 10, 20, 10, 20⟩,
        fwdOpenReplyBytes 0xD4 0 ⟨1, 5, 2, 3, 4, 10, 20, 10, 20⟩) := by
  have h := (C4_forward_open 5 ⟨1, 0, 2, 3, 4, 10, 20, 0, 0⟩ (by norm_num)).1
  exact h

/-! ### C10: registry (class, instance) uniqueness -/

/-- C10: the registry maps each (class, instance) pair to at most one
live Object: constructing an Object whose (class, instance) is already
present fails the assertion (returns no id) with the directory left
untouched, and every construction preserves directory key uniqueness. -/
theorem C10_registry_unique (s : RegSt) (c i : Nat) (h : (c, i) ∈ s.dir) :
    (mkObject s c (some i)).1 = none ∧
    (mkObject s c (some i)).2.dir = s.dir ∧
    (∀ (s2 : RegSt) (c2 : Nat) (iid : Option Nat), s2.dir.Nodup →
      (mkObject s2 c2 iid).2.dir.Nodup) := by
  have hc : (s.dir.contains (c, i) : Bool) = true := List.elem_iff.mpr h
  refine ⟨?_, ?_, ?_⟩
  · unfold mkObject
    simp only [Option.getD_some, hc, if_pos]
  · unfold mkObject
    simp only [Option.getD_some, hc, if_pos]
  · intro s2 c2 iid hnd
    dsimp only [mkObject]
    split
    · exact hnd
    · rename_i hmem
      have hni : (c2, iid.getD (s2.maxInst c2 + 1)) ∉ s2.dir := fun hmem2 =>
        hmem (List.elem_iff.mpr hmem2)
      split
      · rename_i h0
        refine List.nodup_cons.mpr ⟨?_, List.nodup_cons.mpr ⟨hni, hnd⟩⟩
        exact fun hmem0 => h0.2 (List.elem_iff.mpr hmem0)
      · exact List.nodup_cons.mpr ⟨hni, hnd⟩

/-- C10 witness: constructing class 1, instance 1 over a directory that
already holds (1, 1) yields no id and leaves the directory unchanged. -/
theorem C10_registry_unique_witness :
    (mkObject ⟨fun _ => 0, [(1, 1)], []⟩ 1 (some 1)).1 = none ∧
    (mkObject ⟨fun _ => 0, [(1, 1)], []⟩ 1 (some 1)).2.dir = [(1, 1)] := by
  have h := C10_registry_unique ⟨fun _ => 0, [(1, 1)], []⟩ 1 1 (by simp)
  exact ⟨h.1, h.2.1⟩

/-! ### C8: resolve failure characterization -/

theorem walkSegs_done (tab : SymTab) (aw : Bool) (st : RSt) (ys : List Seg)
    (h : doneSt aw st = true) : walkSegs tab aw st ys = .ok st := by
  cases ys with
  | nil => rfl
  | cons y ys => simp [walkSegs, h]

theorem walkSegs_append (tab : SymTab) (aw : Bool) (xs ys : List Seg) (st : RSt) :
    walkSegs tab aw st (xs ++ ys) =
      match walkSegs tab aw st xs with
      | .error e => .error e
      | .ok st1 => walkSegs tab aw st1 ys := by
  induction xs generalizing st with
  | nil => rfl
  | cons x xs ih =>
    by_cases hd : doneSt aw st = true
    · simp [walkSegs, hd, walkSegs_done tab aw st ys hd]
    · simp only [List.cons_append, walkSegs, hd, if_neg, Bool.not_eq_true]
      cases resolveStep tab st x with
      | error e => rfl
      | ok st1 => exact ih st1

theorem finalizeOk_eq (aw : Bool) (st : RSt) :
    finalizeOk aw st = ((st.tag == "") && doneSt aw st) := by
  rcases st with ⟨c, i, a, tag⟩
  cases c <;> cases i <;> cases a <;> cases aw <;> simp [finalizeOk, doneSt]

theorem walkSegs_spec (tab : SymTab) (aw : Bool) :
    ∀ (segs : List Seg) (st : RSt),
      (match walkSegs tab aw st segs with
        | .error _ => false
        | .ok st1 => finalizeOk aw st1) = resolveOkSpec tab aw st segs := by
  intro segs
  induction segs with
  | nil =>
    intro st
    simp [walkSegs, resolveOkSpec, finalizeOk_eq]
  | cons seg rest ih =>
    intro st
    by_cases hd : doneSt aw st = true
    · rw [walkSegs_done tab aw st _ hd]
      simp [resolveOkSpec, hd, finalizeOk_eq]
    · simp only [walkSegs, resolveOkSpec, hd]
      rw [if_neg (by simp [hd]), if_neg (by simp [hd])]
      cases seg with
      | scls n =>
        by_cases hc : st.c.isSome
        · simp [resolveStep, hc]
        · simp [resolveStep, hc, ih]
      | sinst n =>
        by_cases hc : st.i.isSome
        · simp [resolveStep, hc]
        · simp [resolveStep, hc, ih]
      | sattr n =>
        by_cases hc : st.a.isSome
        · simp [resolveStep, hc]
        · simp [resolveStep, hc, ih]
      | selem n => simp [resolveStep]
      | ssym s =>
        simp only [resolveStep]
        cases hsym : symLookup tab (tagExtend st.tag s) with
        | none => simp [ih]
        | some v =>
          rcases v with ⟨vc, vi, va⟩
          by_cases hc : (st.c.isSome || st.i.isSome || st.a.isSome) = true
          · simp [hc]
          · simp [hc, ih]

theorem exceptOk_resolve (tab : SymTab) (segs : List Seg) (aw : Bool) :
    exceptOk (resolve tab segs aw) =
      (match walkSegs tab aw ⟨none, none, none, ""⟩ segs with
        | .error _ => false
        | .ok st1 => finalizeOk aw st1) := by
  unfold resolve
  cases hw : walkSegs tab aw ⟨none, none, none, ""⟩ segs with
  | error e => rfl
  | ok st =>
    dsimp only
    by_cases ht : st.tag = ""
    · rw [if_neg (not_not_intro ht)]
      by_cases hf : (st.c.isNone || st.i.isNone || (aw && st.a.isNone)) = true
      · rw [if_pos hf]
        simp [exceptOk, finalizeOk, ht, hf]
      · rw [if_neg hf]
        simp only [Bool.not_eq_true] at hf
        simp [exceptOk, finalizeOk, ht, hf]
    · rw [if_pos ht]
      simp [exceptOk, finalizeOk, ht]

/-- C8 counterexample: on the path `[class 1, instance 2, class 3]`
(attribute not required) the third segment would overwrite the already
set class, yet `resolve` SUCCEEDS with (1, 2): the walk breaks off as
soon as class and instance are both set, so the claimed overwrite
failure never fires for segments after completion. -/
theorem C8_counterexample :
    resolve [] [Seg.scls 1, Seg.sinst 2, Seg.scls 3] false = .ok (1, 2, none) := by
  rfl

/-- C8 (amended): `resolve(path, attribute)` fails exactly when, among
the segments actually processed — the walk stops as soon as class,
instance and (with attribute=True) attribute are all set, ignoring all
later segments — a numeric or symbol-table substitution would overwrite
an already-set field, or a processed non-symbolic segment carries none
of class/instance/attribute (e.g. a bare element), or, once the walk
ends, a symbolic tag remains unresolved or a required field is unset;
otherwise it returns the filled triple.  Stated as: (1) segments after
the walk reaches a completed state never affect the outcome, and (2)
success is exactly the spec-side predicate expressing the above. -/
theorem C8_resolve_characterization :
    (∀ (tab : SymTab) (aw : Bool) (p rest : List Seg) (st : RSt),
      walkSegs tab aw ⟨none, none, none, ""⟩ p = .ok st → doneSt aw st = true →
      resolve tab (p ++ rest) aw = resolve tab p aw) ∧
    (∀ (tab : SymTab) (aw : Bool) (segs : List Seg),
      exceptOk (resolve tab segs aw) = resolveOkSpec tab aw ⟨none, none, none, ""⟩ segs) := by
  constructor
  · intro tab aw p rest st hw hd
    unfold resolve
    rw [walkSegs_append, hw]
    dsimp only
    rw [walkSegs_done tab aw st rest hd]
  · intro tab aw segs
    rw [exceptOk_resolve, walkSegs_spec]

/-- C8 witness: the early-stop part of the amended theorem applied to
the counterexample's path prefix. -/
theorem C8_resolve_characterization_witness :
    resolve [] ([Seg.scls 1, Seg.sinst 2] ++ [Seg.scls 3]) false =
      resolve [] [Seg.scls 1, Seg.sinst 2] false := by
  exact C8_resolve_characterization.1 [] false [Seg.scls 1, Seg.sinst 2] [Seg.scls 3]
    ⟨some 1, some 2, none, ""⟩ rfl rfl

/-! ### C5: Multiple Service Packet dispatch and reply order -/

theorem mspProcess_trace (h : Sub → Sub) :
    ∀ (rs : List Sub) (pre : List Sub),
      mspProcess (fun tr r => (tr ++ [r], h r)) pre rs = (pre ++ rs, rs.map h) := by
  intro rs
  induction rs with
  | nil => intro pre; simp [mspProcess]
  | cons r rest ih =>
    intro pre
    simp only [mspProcess, ih, List.map_cons]
    simp

/-- C5: an MSP request whose path resolves to a different, existing
target object is still processed by the Message Router itself: the
outer artifact is converted to the 0x8A reply with status 0 produced
locally by `Message_Router.produce` from the sub-replies, the target's
`request` being applied only to the nested sub-requests (`tf` threads a
state so dispatch order is observable); and dispatching with a tracing
state shows the sub-requests are dispatched in index order with the
sub-replies kept in the same order. -/
theorem C5_msp_routed {σ : Type} (selfIds : Nat × Nat)
    (objs : Nat × Nat → Option (σ → Sub → σ × Sub)) (selfF tf : σ → Sub → σ × Sub)
    (tab : SymTab) (segs : List Seg) (c i : Nat) (a : Option Nat)
    (reqs : List Sub) (s : σ)
    (hres : resolve tab segs false = .ok (c, i, a))
    (hns : ¬ ((c, i) = selfIds)) (hobj : objs (c, i) = some tf) :
    mspRequest selfIds objs selfF tab (some segs) reqs s =
      ((mspProcess tf s reqs).1, 0x8A, 0,
        mspProduceReply 0x8A 0 (((mspProcess tf s reqs).2).map Sub.input)) ∧
    (∀ (h : Sub → Sub) (rs : List Sub),
      mspProcess (fun (tr : List Sub) r => (tr ++ [r], h r)) [] rs = (rs, rs.map h)) := by
  constructor
  · unfold mspRequest
    dsimp only
    rw [hres]
    dsimp only
    rw [if_neg hns, hobj]
  · intro h rs
    simpa using mspProcess_trace h rs []

/-- C5 witness: the theorem at a concrete registry with the router at
(2, 1), a path to object (5, 1), and two sub-requests. -/
theorem C5_msp_routed_witness :
    mspRequest (σ := Nat) (2, 1)
      (fun p => if p = (5, 1) then some (fun n r => (n + 1, r)) else none)
      (fun n r => (n, r)) [] (some [Seg.scls 5, Seg.sinst 1])
      [⟨[0xCC, 0]⟩, ⟨[0xCC, 1]⟩] 0 =
      (2, 0x8A, 0, mspProduceReply 0x8A 0 [[0xCC, 0], [0xCC, 1]]) := by
  have h := (C5_msp_routed (σ := Nat) (2, 1)
    (fun p => if p = (5, 1) then some (fun n r => (n + 1, r)) else none)
    (fun n r => (n, r)) (fun n r => (n + 1, r)) [] [Seg.scls 5, Seg.sinst 1] 5 1 none
    [⟨[0xCC, 0]⟩, ⟨[0xCC, 1]⟩] 0 rfl (by decide) rfl).1
  rw [h]
  rfl

/-! ### C6: instance allocation monotonicity across resets -/

theorem mkObject_maxInst (s : RegSt) (c : Nat) (iid : Option Nat) (c2 : Nat) :
    (mkObject s c iid).2.maxInst c2 =
      if c2 = c then max (s.maxInst c2) (iid.getD (s.maxInst c + 1)) else s.maxInst c2 := by
  dsimp only [mkObject]
  split <;> rfl

theorem mkObject_maxInst_mono (s : RegSt) (c : Nat) (iid : Option Nat) (c2 : Nat) :
    s.maxInst c2 ≤ (mkObject s c iid).2.maxInst c2 := by
  rw [mkObject_maxInst]
  split
  · exact le_max_left _ _
  · exact le_refl _

theorem mkObject_auto_succ (s : RegSt) (c : Nat) (h : dirInv s) :
    (mkObject s c none).1 = some (s.maxInst c + 1) := by
  dsimp only [mkObject]
  rw [if_neg]
  · rfl
  · intro hmem
    have := h _ (List.elem_iff.mp hmem)
    simp at this

theorem mkObject_fst (s : RegSt) (c : Nat) (iid : Option Nat) :
    (mkObject s c iid).1 = none ∨
      (mkObject s c iid).1 = some (iid.getD (s.maxInst c + 1)) := by
  dsimp only [mkObject]
  split
  · exact Or.inl rfl
  · split <;> exact Or.inr rfl

theorem mkObject_dirInv (s : RegSt) (c : Nat) (iid : Option Nat) (h : dirInv s) :
    dirInv (mkObject s c iid).2 := by
  have hmax := mkObject_maxInst s c iid
  intro p hp
  have hdir : (mkObject s c iid).2.dir = s.dir ∨
      (mkObject s c iid).2.dir = (c, iid.getD (s.maxInst c + 1)) :: s.dir ∨
      (mkObject s c iid).2.dir =
        (c, 0) :: (c, iid.getD (s.maxInst c + 1)) :: s.dir := by
    dsimp only [mkObject]
    split
    · exact Or.inl rfl
    · split
      · exact Or.inr (Or.inr rfl)
      · exact Or.inr (Or.inl rfl)
  have hold : ∀ q, q ∈ s.dir → q.2 ≤ (mkObject s c iid).2.maxInst q.1 :=
    fun q hq => le_trans (h q hq) (mkObject_maxInst_mono s c iid q.1)
  have hnew : iid.getD (s.maxInst c + 1) ≤ (mkObject s c iid).2.maxInst c := by
    rw [hmax c, if_pos rfl]
    exact le_max_right _ _
  rcases hdir with hd | hd | hd <;> rw [hd] at hp
  · exact hold p hp
  · rcases List.mem_cons.mp hp with rfl | hp
    · exact hnew
    · exact hold p hp
  · rcases List.mem_cons.mp hp with rfl | hp
    · simp
    · rcases List.mem_cons.mp hp with rfl | hp
      · exact hnew
      · exact hold p hp

theorem runTrace_aux (ops : List RegOp) :
    ∀ (s : RegSt), dirInv s →
      ((runTrace s ops).2.Pairwise allocLt ∧
       (∀ e ∈ (runTrace s ops).2, e.1 = true → s.maxInst e.2.1 < e.2.2) ∧
       dirInv (runTrace s ops).1) := by
  induction ops with
  | nil =>
    intro s hinv
    exact ⟨List.Pairwise.nil, by simp [runTrace], by simpa [runTrace] using hinv⟩
  | cons op rest ih =>
    intro s hinv
    cases op with
    | autoAlloc c =>
      have hsucc := mkObject_auto_succ s c hinv
      have hinv1 := mkObject_dirInv s c none hinv
      obtain ⟨hp, hgt, hinvf⟩ := ih (mkObject s c none).2 hinv1
      have hmax1 : (mkObject s c none).2.maxInst c = s.maxInst c + 1 := by
        rw [mkObject_maxInst, if_pos rfl]
        simp
      have hmono := mkObject_maxInst_mono s c none
      refine ⟨?_, ?_, ?_⟩ <;>
        simp only [runTrace, hsucc, Option.map_some', Option.toList_some,
          List.singleton_append]
      · refine List.Pairwise.cons ?_ hp
        intro e he hauto hcls
        have hcls2 : c = e.2.1 := hcls
        have hlt := hgt e he hauto
        rw [← hcls2, hmax1] at hlt
        exact hlt
      · intro e he hauto
        rcases List.mem_cons.mp he with rfl | he
        · show s.maxInst c < s.maxInst c + 1
          omega
        · exact lt_of_le_of_lt (hmono e.2.1) (hgt e he hauto)
      · exact hinvf
    | expAlloc c i =>
      have hinv1 := mkObject_dirInv s c (some i) hinv
      obtain ⟨hp, hgt, hinvf⟩ := ih (mkObject s c (some i)).2 hinv1
      have hmax1 : (mkObject s c (some i)).2.maxInst c = max (s.maxInst c) i := by
        rw [mkObject_maxInst, if_pos rfl]
        rfl
      have hmono := mkObject_maxInst_mono s c (some i)
      rcases mkObject_fst s c (some i) with hres | hres <;>
        simp only [runTrace, hres, Option.map_some', Option.map_none',
          Option.toList_some, Option.toList_none, List.singleton_append,
          List.nil_append]
      · exact ⟨hp, fun e he ha => lt_of_le_of_lt (hmono e.2.1) (hgt e he ha), hinvf⟩
      · refine ⟨?_, ?_, ?_⟩
        · refine List.Pairwise.cons ?_ hp
          intro e he hauto hcls
          have hcls2 : c = e.2.1 := hcls
          have hlt := hgt e he hauto
          rw [← hcls2, hmax1] at hlt
          exact lt_of_le_of_lt (le_max_right _ _) hlt
        · intro e he hauto
          rcases List.mem_cons.mp he with rfl | he
          · simp at hauto
          · exact lt_of_le_of_lt (hmono e.2.1) (hgt e he hauto)
        · exact hinvf
    | reset =>
      have hinv1 : dirInv (lookup_reset s) := by
        intro p hp
        simp [lookup_reset] at hp
      obtain ⟨hp, hgt, hinvf⟩ := ih (lookup_reset s) hinv1
      refine ⟨?_, ?_, ?_⟩ <;>
        simp only [runTrace, Option.toList_none, List.nil_append]
      · exact hp
      · exact fun e he ha => hgt e he ha
      · exact hinvf

/-- C6: along any run of constructions (automatic or explicit ids) and
`lookup_reset` calls from the empty registry, every automatically
allocated instance id is strictly greater than the id of EVERY earlier
instance of the same class (so successive automatic allocations are
strictly increasing, and allocations after a reset still exceed all
prior ids of that class); automatic allocation always yields
`max_instance + 1`; and `lookup_reset` clears the directory and symbol
table while preserving the per-class `max_instance` counters. -/
theorem C6_instance_monotonic :
    (∀ ops : List RegOp, ((runTrace regInit ops).2).Pairwise allocLt) ∧
    (∀ (s : RegSt) (c : Nat), dirInv s →
      (mkObject s c none).1 = some (s.maxInst c + 1)) ∧
    (∀ s : RegSt, (lookup_reset s).dir = [] ∧ (lookup_reset s).symtab = [] ∧
      (lookup_reset s).maxInst = s.maxInst) := by
  refine ⟨?_, ?_, ?_⟩
  · intro ops
    exact (runTrace_aux ops regInit (by intro p hp; simp [regInit] at hp)).1
  · exact fun s c h => mkObject_auto_succ s c h
  · exact fun s => ⟨rfl, rfl, rfl⟩

/-- C6 witness: automatic allocation from the empty registry yields
instance id 1, and after constructing instance 1 and resetting, the next
automatic allocation yields the strictly higher id 2. -/
theorem C6_instance_monotonic_witness :
    (mkObject regInit 1 none).1 = some 1 ∧
    (runTrace regInit [RegOp.autoAlloc 1, RegOp.reset, RegOp.autoAlloc 1]).2 =
      [(true, 1, 1), (true, 1, 2)] ∧
    ((runTrace regInit [RegOp.autoAlloc 1, RegOp.reset, RegOp.autoAlloc 1]).2).Pairwise
      allocLt := by
  refine ⟨?_, rfl, (C6_instance_monotonic.1 [RegOp.autoAlloc 1, RegOp.reset,
    RegOp.autoAlloc 1])⟩
  exact C6_instance_monotonic.2.1 regInit 1 (by intro p hp; simp [regInit] at hp)

/-! ### C2: base Object request reply shape -/

theorem recognizeSvc_cases (d : Data) (svc : Nat) (h : recognizeSvc d = some svc) :
    svc = 0x0E ∨ svc = 0x01 ∨ svc = 0x10 := by
  unfold recognizeSvc at h
  split_ifs at h <;> simp_all

theorem processRecognized_keeps (o : ObjM) (d : Data) :
    ((processRecognized o d).2).service = d.service ∧
    (((processRecognized o d).2).status = 0 ∨
      ((processRecognized o d).2).status = d.status) ∧
    (d.service = some 0x81 → ((processRecognized o d).2).status = 0 →
      d.status ≠ 0 → ((processRecognized o d).2).gaAllData.isSome = true) ∧
    (d.service = some 0x8E → ((processRecognized o d).2).status = 0 →
      d.status ≠ 0 → ((processRecognized o d).2).gaSngData.isSome = true) := by
  dsimp only [processRecognized]
  split
  · rename_i h81
    split
    · exact ⟨rfl, Or.inr rfl, fun _ h0 hne => absurd h0 hne, fun _ h0 hne => absurd h0 hne⟩
    · exact ⟨rfl, Or.inl rfl, fun _ _ _ => rfl, fun h8E _ _ => by
        rw [h81] at h8E; exact absurd (Option.some.inj h8E) (by decide)⟩
  · rename_i hn81
    split
    · exact ⟨rfl, Or.inr rfl, fun _ h0 hne => absurd h0 hne, fun _ h0 hne => absurd h0 hne⟩
    · split
      · exact ⟨rfl, Or.inr rfl, fun _ h0 hne => absurd h0 hne, fun _ h0 hne => absurd h0 hne⟩
      · split
        · exact ⟨rfl, Or.inr rfl, fun _ h0 hne => absurd h0 hne,
            fun _ h0 hne => absurd h0 hne⟩
        · split
          · exact ⟨rfl, Or.inl rfl, fun h81 _ _ => absurd h81 hn81, fun _ _ _ => rfl⟩
          · rename_i hn8E
            split
            · exact ⟨rfl, Or.inr rfl, fun _ h0 hne => absurd h0 hne,
                fun _ h0 hne => absurd h0 hne⟩
            · split
              · exact ⟨rfl, Or.inl rfl, fun h81 _ _ => absurd h81 hn81,
                  fun h8E _ _ => absurd h8E hn8E⟩
              · exact ⟨rfl, Or.inr rfl, fun _ h0 hne => absurd h0 hne,
                  fun _ h0 hne => absurd h0 hne⟩

theorem objProduce_reply (d : Data) (s : Nat) (hs : d.service = some s)
    (hone : s = 0x81 ∨ s = 0x8E ∨ s = 0x90)
    (h81 : s = 0x81 → d.status = 0 → d.gaAllData.isSome = true)
    (h8E : s = 0x8E → d.status = 0 → d.gaSngData.isSome = true) :
    ∃ bs, objProduce d = some bs ∧ bs ≠ [] := by
  rcases hone with rfl | rfl | rfl
  · unfold objProduce
    rw [hs]
    rw [if_neg (by simp), if_neg (by simp), if_neg (by simp), if_pos rfl]
    by_cases h0 : d.status = 0
    · obtain ⟨bs, hbs⟩ := Option.isSome_iff_exists.mp (h81 rfl h0)
      rw [if_pos h0, hbs]
      exact ⟨_, rfl, by simp [usintProduce]⟩
    · rw [if_neg h0]
      exact ⟨_, rfl, by simp [usintProduce]⟩
  · unfold objProduce
    rw [hs]
    rw [if_neg (by simp), if_neg (by simp), if_neg (by simp), if_neg (by simp),
      if_pos rfl]
    by_cases h0 : d.status = 0
    · obtain ⟨bs, hbs⟩ := Option.isSome_iff_exists.mp (h8E rfl h0)
      rw [if_pos h0, hbs]
      exact ⟨_, rfl, by simp [usintProduce]⟩
    · rw [if_neg h0]
      exact ⟨_, rfl, by simp [usintProduce]⟩
  · unfold objProduce
    rw [hs]
    rw [if_neg (by simp), if_neg (by simp), if_neg (by simp), if_neg (by simp),
      if_neg (by simp), if_pos rfl]
    exact ⟨_, rfl, by simp [usintProduce]⟩

/-- C2 counterexample: the artifact with unrecognized request service
0x05 and no service contexts.  `Object.request` presets status 0x08 and
catches the recognition failure, but the final
`data.input = bytearray(self.produce(data))` raises
(`produce` has no branch for it: the service has no reply bit and there
is no `service_code` context), so the exception propagates and NO reply
is produced — `data.input` is never written and `data.service` never
receives its high bit, contradicting the claim that a reply is always
produced. -/
theorem C2_counterexample :
    objRequest ⟨[]⟩
      ⟨some 5, false, false, false, false, none, none, none, none, none, 0, none⟩ =
      .error () := by
  rfl

/-- C2 (amended): for every request data artifact whose service is
recognized (Get Attributes All, Get Attribute Single or Set Attribute
Single, explicitly or defaulted from the parsed context),
`Object.request` returns normally having set `data.service` to the
recognized service with its high bit (0x81, 0x8E or 0x90), set
`data.status` to a byte that is 0x08 exactly when processing failed and
0 on success, and written `data.input` to a nonempty byte sequence; for
unrecognized artifacts the reply production itself can raise, leaving
`data.input` unwritten (see the counterexample). -/
theorem C2_reply_shape (o : ObjM) (d : Data) (svc : Nat)
    (h : recognizeSvc d = some svc) :
    ∃ o1 d1, objRequest o d = .ok (o1, d1) ∧
      d1.service = some (svc ||| 0x80) ∧
      (svc ||| 0x80) &&& 0x80 = 0x80 ∧
      (d1.status = 0 ∨ d1.status = 8) ∧
      ∃ bs, d1.input = some bs ∧ bs ≠ [] := by
  have hsvc3 := recognizeSvc_cases d svc h
  have hor : svc ||| 0x80 = 0x81 ∨ svc ||| 0x80 = 0x8E ∨ svc ||| 0x80 = 0x90 := by
    rcases hsvc3 with rfl | rfl | rfl
    · exact Or.inr (Or.inl (by decide))
    · exact Or.inl (by decide)
    · exact Or.inr (Or.inr (by decide))
  have hbit : (svc ||| 0x80) &&& 0x80 = 0x80 := by
    rcases hor with he | he | he <;> rw [he] <;> decide
  have h0 : recognizeSvc { d with status := 8 } = some svc := h
  obtain ⟨hserv, hstat, hga, hsng⟩ :=
    processRecognized_keeps o { d with status := 8, service := some (svc ||| 0x80) }
  have hne : ({ d with status := 8, service := some (svc ||| 0x80) } : Data).status ≠ 0 :=
    (by decide : (8 : Nat) ≠ 0)
  have hPs : (processRecognized o
      { d with status := 8, service := some (svc ||| 0x80) }).2.service =
      some (svc ||| 0x80) := hserv
  have hPstat : (processRecognized o
      { d with status := 8, service := some (svc ||| 0x80) }).2.status = 0 ∨
      (processRecognized o
        { d with status := 8, service := some (svc ||| 0x80) }).2.status = 8 := hstat
  obtain ⟨bs, hbs, hbne⟩ := objProduce_reply _ (svc ||| 0x80) hPs hor
    (fun h81 hst => hga (by rw [← h81]) hst hne)
    (fun h8E hst => hsng (by rw [← h8E]) hst hne)
  unfold objRequest
  dsimp only
  rw [h0]
  dsimp only
  rw [hbs]
  exact ⟨_, _, rfl, hPs, hbit, hPstat, bs, rfl, hbne⟩

/-- C2 witness: the amended theorem at a Get Attribute Single request
for attribute 1 of an object holding one visible INT attribute. -/
theorem C2_reply_shape_witness :
    ∃ o1 d1,
      objRequest ⟨[(1, ⟨0, [1, 0], 2, 1⟩)]⟩
          ⟨some 0x0E, false, true, false, false, none, none, none, none,
            some [Seg.scls 1, Seg.sinst 1, Seg.sattr 1], 0, none⟩ =
        .ok (o1, d1) ∧
      d1.service = some (0x0E ||| 0x80) ∧
      (0x0E ||| 0x80) &&& 0x80 = 0x80 ∧
      (d1.status = 0 ∨ d1.status = 8) ∧
      ∃ bs, d1.input = some bs ∧ bs ≠ [] := by
  exact C2_reply_shape ⟨[(1, ⟨0, [1, 0], 2, 1⟩)]⟩
    ⟨some 0x0E, false, true, false, false, none, none, none, none,
      some [Seg.scls 1, Seg.sinst 1, Seg.sattr 1], 0, none⟩ 0x0E rfl

end Cpppo
